import Mathlib

/-!
Shallow embedding of the FractionsSaucer game core (src/App.tsx).

The React component keeps its simulation data in a mutable ref
(`stateRef`) and its modal / state-machine data in React state hooks.
Here both are combined into one record, `AppState`, and every event
handler or game-logic block of the source becomes a pure function
`AppState → AppState`.  JavaScript numbers holding continuous
quantities (positions, timers) are modelled as `ℚ`; integer-valued
quantities (numerators, counters, indices) as `Int`/`Nat`.

Parts of the source that are pure rendering (canvas drawing, DOM
markup), audio emission, or randomness are outside the model: random
draws (`spawnGem`, `makeChargeQuestion`) appear as injected parameters,
matching the spec's instruction to abstract the random source behind an
injectable generator; audio calls are fire-and-forget and have no
effect on simulation state.  The `keys` record and the decorative
`stars` array are likewise omitted: no claim concerns them.
-/

/-- The game's top-level state tag (`type GameState` in src/App.tsx). -/
inductive GameState
  | start
  | playing
  | math_challenge
  | level_complete
  | game_complete
  | charge_up
deriving DecidableEq, Repr

/-- A level-catalog entry (`interface Level`). -/
structure Level where
  id : Int
  denominator : Int
  targetNumerator : Int
  numShips : Int
  speedMultiplier : ℚ
deriving DecidableEq, Repr, Inhabited

/-- The fixed level catalog (`const LEVELS` in src/App.tsx). -/
def LEVELS : List Level :=
  [ { id := 1, denominator := 3, targetNumerator := 3, numShips := 1, speedMultiplier := 0.8 },
    { id := 2, denominator := 4, targetNumerator := 4, numShips := 1, speedMultiplier := 0.9 },
    { id := 3, denominator := 5, targetNumerator := 5, numShips := 1, speedMultiplier := 1.0 },
    { id := 4, denominator := 6, targetNumerator := 6, numShips := 1, speedMultiplier := 1.1 },
    { id := 5, denominator := 7, targetNumerator := 7, numShips := 1, speedMultiplier := 1.2 },
    { id := 6, denominator := 8, targetNumerator := 8, numShips := 1, speedMultiplier := 1.3 },
    { id := 7, denominator := 4, targetNumerator := 8, numShips := 2, speedMultiplier := 1.4 },
    { id := 8, denominator := 5, targetNumerator := 10, numShips := 2, speedMultiplier := 1.5 },
    { id := 9, denominator := 6, targetNumerator := 12, numShips := 2, speedMultiplier := 1.6 },
    { id := 10, denominator := 8, targetNumerator := 24, numShips := 3, speedMultiplier := 1.7 },
    { id := 11, denominator := 3, targetNumerator := 12, numShips := 4, speedMultiplier := 1.8 } ]

/-- Operator of a charge-up question (`op: '+' | '-'`). -/
inductive ChargeOp
  | plus
  | minus
deriving DecidableEq, Repr

/-- A charge-up arithmetic question (`interface ChargeQuestion`). -/
structure ChargeQuestion where
  n1 : Int
  n2 : Int
  op : ChargeOp
  d : Int
deriving DecidableEq, Repr

/-- A falling fraction gem (`interface Gem`). -/
structure Gem where
  id : ℚ
  x : ℚ
  y : ℚ
  numerator : Int
  speed : ℚ
  radius : ℚ
deriving DecidableEq, Repr

/-- A falling obstacle (`interface Obstacle`). -/
structure Obstacle where
  id : ℚ
  x : ℚ
  y : ℚ
  speed : ℚ
  radius : ℚ
  rotation : ℚ
  rotSpeed : ℚ
deriving DecidableEq, Repr

/-- A transient pulsar shockwave record (`interface Shockwave`). -/
structure Shockwave where
  x : ℚ
  y : ℚ
  radius : ℚ
  maxRadius : ℚ
  alpha : ℚ
deriving DecidableEq, Repr

/-- The mutable simulation record (`stateRef.current` in src/App.tsx),
restricted to the fields the game logic reads or writes (the decorative
`stars`, the raw `keys` map and the spawn/bgm step counters not touched
by the modelled operations are omitted). -/
structure SimState where
  shipX : ℚ
  shipY : ℚ
  currentNumerator : Int
  gems : List Gem
  obstacles : List Obstacle
  shockwaves : List Shockwave
  collectedHistory : List Int
  lastTime : ℚ
  flashTimer : ℚ
  bgmTimer : ℚ
  powerUps : Int
deriving DecidableEq, Repr

/-- The whole component state: React state hooks plus the simulation ref. -/
structure AppState where
  gameState : GameState
  levelIdx : Nat
  mathStep : Nat
  mathInput : String
  mathError : Bool
  chargeProgress : Nat
  chargeQuestion : ChargeQuestion
  sim : SimState
deriving DecidableEq, Repr

/-- Sum of a history list the way the source computes it:
`history.reduce((a, b) => a + b, 0)`. -/
def listSum (l : List Int) : Int :=
  List.foldl (· + ·) 0 l

/-- Decimal digit value of a character, `none` if not a digit. -/
def digitVal (c : Char) : Option Nat :=
  if '0' ≤ c ∧ c ≤ '9' then some (c.toNat - '0'.toNat) else none

/-- Longest leading run of decimal digits of a character list. -/
def takeDigits : List Char → List Nat
  | [] => []
  | c :: cs =>
    match digitVal c with
    | some d => d :: takeDigits cs
    | none => []

/-- JavaScript `parseInt(s)` for radix 10: skip leading whitespace, read an
optional sign and then the longest leading digit run; `none` models the
`NaN` result on empty digit runs.  (`NaN === x` is false for every `x`, so
`none` never compares equal to an expected value.) -/
def parseIntJS (s : String) : Option Int :=
  let cs := s.data.dropWhile (fun c => c = ' ' ∨ c = '\t' ∨ c = '\n' ∨ c = '\r')
  let signed : Bool × List Char :=
    match cs with
    | '-' :: rest => (true, rest)
    | '+' :: rest => (false, rest)
    | _ => (false, cs)
  let ds := takeDigits signed.2
  if ds.isEmpty then none
  else
    let v : Nat := List.foldl (fun acc d => acc * 10 + d) 0 ds
    some (if signed.1 then -(v : Int) else (v : Int))

/-- The level-catalog lookup `LEVELS[levelIdxRef.current]`; the index is
in range in every reachable state, so the fallback is never consulted. -/
def levelAt (i : Nat) : Level :=
  (LEVELS.get? i).getD default

/-- Effect of the ship collecting one gem of numerator `g`
(src/App.tsx lines 336-372, the gem-overlap branch of `update`):
accumulate and append, clamp a negative sum to zero (clearing history),
then either complete the level (history length ≤ 1), enter the math
challenge (history length > 1), reset on overshoot, or keep playing.
Audio cues and removal of the collected gem from the falling-gem list
are side effects outside the progress state machine. -/
def collectGem (a : AppState) (g : Int) : AppState :=
  let level := levelAt a.levelIdx
  let n0 := a.sim.currentNumerator + g
  let h0 := a.sim.collectedHistory ++ [g]
  let n := if n0 < 0 then 0 else n0
  let h := if n0 < 0 then [] else h0
  if n = level.targetNumerator then
    if h.length ≤ 1 then
      { a with
        sim := { a.sim with currentNumerator := n, collectedHistory := h },
        gameState :=
          if a.levelIdx = LEVELS.length - 1 then GameState.game_complete
          else GameState.level_complete }
    else
      { a with
        sim := { a.sim with currentNumerator := n, collectedHistory := h },
        mathStep := 1, mathInput := "", mathError := false,
        gameState := GameState.math_challenge }
  else if n > level.targetNumerator then
    { a with
      sim := { a.sim with
        currentNumerator := 0, collectedHistory := [], flashTimer := 300 } }
  else
    { a with sim := { a.sim with currentNumerator := n, collectedHistory := h } }

/-- Effect of an obstacle hitting the ship (src/App.tsx lines 306-318):
numerator and history reset together, hit flash triggered.  Removal of
the obstacle from the falling list is part of the collision loop. -/
def obstacleHit (a : AppState) : AppState :=
  { a with
    sim := { a.sim with
      currentNumerator := 0, collectedHistory := [], flashTimer := 300 } }

/-- The `startGame` handler (src/App.tsx lines 566-579): full restart from
the start screen or after `game_complete`; `w`, `h` are the window inner
dimensions and `now` the current timestamp. -/
def startGame (w h now : ℚ) (a : AppState) : AppState :=
  { a with
    levelIdx := 0,
    sim := { a.sim with
      currentNumerator := 0, gems := [], obstacles := [], shockwaves := [],
      collectedHistory := [], shipX := w / 2, shipY := h - 80,
      lastTime := now, bgmTimer := 0, powerUps := 0 },
    gameState := GameState.playing }

/-- The `nextLevel` handler (src/App.tsx lines 581-593): advance the level
index and reset the run, leaving `powerUps` untouched. -/
def nextLevel (w h now : ℚ) (a : AppState) : AppState :=
  { a with
    levelIdx := a.levelIdx + 1,
    sim := { a.sim with
      currentNumerator := 0, gems := [], obstacles := [], shockwaves := [],
      collectedHistory := [], shipX := w / 2, shipY := h - 80,
      lastTime := now, bgmTimer := 0 },
    gameState := GameState.playing }

/-- The spacebar pulsar handler (src/App.tsx lines 126-145): while playing
and holding at least one power-up, consume one, push a shockwave at the
ship and destroy all obstacles; otherwise do nothing. -/
def pulsarKey (w h : ℚ) (a : AppState) : AppState :=
  if a.gameState = GameState.playing then
    if a.sim.powerUps > 0 then
      { a with
        sim := { a.sim with
          powerUps := a.sim.powerUps - 1,
          shockwaves := a.sim.shockwaves ++
            [{ x := a.sim.shipX, y := a.sim.shipY, radius := 0,
               maxRadius := max w h, alpha := 1 }],
          obstacles := [] } }
    else a
  else a

/-- The expected answer of the current math-challenge step
(src/App.tsx lines 596-599): `history[mathStep]` plus the sum of the
history before it; `none` models the `NaN` expected value when
`history[mathStep]` is `undefined`. -/
def mathExpected (a : AppState) : Option Int :=
  (a.sim.collectedHistory.get? a.mathStep).map
    (fun g => listSum (a.sim.collectedHistory.take a.mathStep) + g)

/-- The correctness test `parseInt(mathInput) === expected` of
`handleMathSubmit`; false whenever either side is `NaN`. -/
def mathCorrect (a : AppState) : Bool :=
  match mathExpected a, parseIntJS a.mathInput with
  | some e, some v => v = e
  | _, _ => false

/-- The `handleMathSubmit` handler (src/App.tsx lines 595-619). -/
def handleMathSubmit (a : AppState) : AppState :=
  if mathCorrect a then
    if a.mathStep + 1 ≥ a.sim.collectedHistory.length then
      { a with gameState :=
          if a.levelIdx = LEVELS.length - 1 then GameState.game_complete
          else GameState.level_complete }
    else
      { a with mathStep := a.mathStep + 1, mathInput := "", mathError := false }
  else
    { a with mathError := true }

/-- Expected answer of a charge-up question
(`op === '+' ? n1 + n2 : n1 - n2`). -/
def chargeExpected (q : ChargeQuestion) : Int :=
  if q.op = ChargeOp.plus then q.n1 + q.n2 else q.n1 - q.n2

/-- The correctness test `parseInt(mathInput) === expected` of
`handleChargeSubmit`. -/
def chargeCorrect (a : AppState) : Bool :=
  match parseIntJS a.mathInput with
  | some v => v = chargeExpected a.chargeQuestion
  | none => false

/-- The `handleChargeSubmit` handler (src/App.tsx lines 772-792).  `newQ`
is the freshly generated question `makeChargeQuestion(levelIdx)` used
when the streak continues (randomness injected as a parameter); `w`,
`h`, `now` feed the `nextLevel` call on completion. -/
def handleChargeSubmit (newQ : ChargeQuestion) (w h now : ℚ) (a : AppState) : AppState :=
  if chargeCorrect a then
    let newProgress := a.chargeProgress + 1
    if newProgress ≥ 3 then
      nextLevel w h now
        { a with sim := { a.sim with powerUps := a.sim.powerUps + 1 } }
    else
      { a with chargeProgress := newProgress, mathInput := "",
               mathError := false, chargeQuestion := newQ }
  else
    { a with mathError := true }

/-- The answer input's `onChange` handler (src/App.tsx lines 674 and 831):
stores the typed text and clears the error flag. -/
def typeInput (s : String) (a : AppState) : AppState :=
  { a with mathInput := s, mathError := false }

/-- The per-frame driver `loop` (src/App.tsx lines 536-546): outside the
`playing` state it advances nothing; inside it, the frame delta is the
time since the last tick clamped to 50ms, `lastTime` is stamped, and the
physics step `upd` (the `update` function, whose spawning randomness is
abstracted here) is fed the clamped delta. -/
def loop (upd : ℚ → SimState → SimState) (gameState : GameState)
    (time : ℚ) (s : SimState) : SimState :=
  if gameState = GameState.playing then
    let dt0 := time - s.lastTime
    let dt := if dt0 > 50 then 50 else dt0
    upd dt { s with lastTime := time }
  else s

/-- The free-play run-progress invariant of the spec:
`currentNumerator` equals the sum of `collectedHistory`. -/
def numInv (a : AppState) : Prop :=
  a.sim.currentNumerator = listSum a.sim.collectedHistory

/-! ### Sample states used by concrete witnesses -/

/-- A fresh simulation record, as after `startGame` on an 800x600 window. -/
def sampleSim : SimState :=
  { shipX := 400, shipY := 520, currentNumerator := 0, gems := [], obstacles := [],
    shockwaves := [], collectedHistory := [], lastTime := 0, flashTimer := 0,
    bgmTimer := 0, powerUps := 0 }

/-- A free-play state on the second catalog level (target numerator 4). -/
def samplePlaying : AppState :=
  { gameState := GameState.playing, levelIdx := 1, mathStep := 0, mathInput := "",
    mathError := false, chargeProgress := 0,
    chargeQuestion := { n1 := 1, n2 := 1, op := ChargeOp.plus, d := 3 },
    sim := sampleSim }

/-! ### Helper lemmas -/

theorem foldl_add_eq (l : List Int) (i : Int) :
    List.foldl (· + ·) i l = i + listSum l := by
  induction l generalizing i with
  | nil => simp [listSum]
  | cons x xs ih =>
    simp only [List.foldl, listSum] at *
    rw [ih (i + x), ih (0 + x)]
    ring

theorem listSum_append (h : List Int) (g : Int) :
    listSum (h ++ [g]) = listSum h + g := by
  unfold listSum
  rw [List.foldl_append]
  rfl

/-- A gem collection either appends to the run (accumulate) or resets both
progress fields together; there is no branch touching only one of them. -/
theorem collectGem_sim_cases (a : AppState) (g : Int) :
    ((collectGem a g).sim.currentNumerator = a.sim.currentNumerator + g
      ∧ (collectGem a g).sim.collectedHistory = a.sim.collectedHistory ++ [g])
    ∨ ((collectGem a g).sim.currentNumerator = 0
      ∧ (collectGem a g).sim.collectedHistory = []) := by
  unfold collectGem
  by_cases h1 : a.sim.currentNumerator + g < 0
  · right
    simp only [h1, if_true]
    split_ifs <;> simp_all
  · by_cases h2 : a.sim.currentNumerator + g = (levelAt a.levelIdx).targetNumerator
    · left
      simp only [h1, if_false, h2, if_pos, if_true]
      split_ifs <;> simp_all <;> omega
    · by_cases h3 : a.sim.currentNumerator + g > (levelAt a.levelIdx).targetNumerator
      · right
        simp only [h1, if_false, h2, h3, if_pos, if_neg, not_false_iff, if_true]
        exact ⟨trivial, trivial⟩
      · left
        simp only [h1, h2, h3, if_false, if_neg, not_false_iff]
        exact ⟨trivial, trivial⟩

theorem collectGem_inv (a : AppState) (g : Int) (hinv : numInv a) :
    numInv (collectGem a g) := by
  rcases collectGem_sim_cases a g with ⟨hn, hh⟩ | ⟨hn, hh⟩
  · unfold numInv at *
    rw [hn, hh, listSum_append, hinv]
  · unfold numInv
    rw [hn, hh]
    rfl

theorem foldl_collectGem_inv (gs : List Int) (a : AppState) (hinv : numInv a) :
    numInv (List.foldl collectGem a gs) := by
  induction gs generalizing a with
  | nil => exact hinv
  | cons g gs ih => exact ih (collectGem a g) (collectGem_inv a g hinv)

theorem collectGem_powerUps (a : AppState) (g : Int) :
    (collectGem a g).sim.powerUps = a.sim.powerUps := by
  simp only [collectGem]
  split_ifs <;> rfl

theorem collectGem_overshoot (a : AppState) (g : Int)
    (htpos : 0 < (levelAt a.levelIdx).targetNumerator)
    (hover : a.sim.currentNumerator + g > (levelAt a.levelIdx).targetNumerator) :
    (collectGem a g).sim.currentNumerator = 0
    ∧ (collectGem a g).sim.collectedHistory = []
    ∧ (collectGem a g).gameState = a.gameState := by
  simp only [collectGem]
  have hnotneg : ¬(a.sim.currentNumerator + g < 0) := by omega
  have hne : ¬(a.sim.currentNumerator + g = (levelAt a.levelIdx).targetNumerator) := by
    omega
  simp [hnotneg, hne, hover]

theorem collectGem_underflow (a : AppState) (g : Int)
    (htpos : 0 < (levelAt a.levelIdx).targetNumerator)
    (hneg : a.sim.currentNumerator + g < 0) :
    (collectGem a g).sim.currentNumerator = 0
    ∧ (collectGem a g).sim.collectedHistory = []
    ∧ (collectGem a g).gameState = a.gameState := by
  simp only [collectGem]
  have hne : ¬((0 : Int) = (levelAt a.levelIdx).targetNumerator) := by omega
  have hngt : ¬((0 : Int) > (levelAt a.levelIdx).targetNumerator) := by omega
  simp [hneg, hne, hngt]

theorem targetNumerator_pos :
    ∀ i : Nat, i < LEVELS.length → 0 < (levelAt i).targetNumerator := by
  decide

/-! ### Claim theorems -/

/-- C1: while in free-play, for every sequence of gem collections the value
`currentNumerator` equals the sum of `collectedHistory` immediately after
each collection (after the add-and-append, before any reset logic), the
invariant is preserved by every collection, and every operation that resets
one of the two run-progress fields (gem-collection reset branches, obstacle
hit, `startGame`, `nextLevel`) resets both together, never independently. -/
theorem free_play_sum_invariant (a : AppState) (gs : List Int) (g : Int)
    (w h now : ℚ) (hinv : numInv a) :
    (List.foldl collectGem a gs).sim.currentNumerator + g
        = listSum ((List.foldl collectGem a gs).sim.collectedHistory ++ [g])
    ∧ numInv (List.foldl collectGem a gs)
    ∧ (((collectGem a g).sim.currentNumerator = a.sim.currentNumerator + g
          ∧ (collectGem a g).sim.collectedHistory = a.sim.collectedHistory ++ [g])
        ∨ ((collectGem a g).sim.currentNumerator = 0
          ∧ (collectGem a g).sim.collectedHistory = []))
    ∧ ((obstacleHit a).sim.currentNumerator = 0
        ∧ (obstacleHit a).sim.collectedHistory = [])
    ∧ ((startGame w h now a).sim.currentNumerator = 0
        ∧ (startGame w h now a).sim.collectedHistory = [])
    ∧ ((nextLevel w h now a).sim.currentNumerator = 0
        ∧ (nextLevel w h now a).sim.collectedHistory = []) := by
  refine ⟨?_, foldl_collectGem_inv gs a hinv, collectGem_sim_cases a g,
    ⟨rfl, rfl⟩, ⟨rfl, rfl⟩, ⟨rfl, rfl⟩⟩
  have hmid := foldl_collectGem_inv gs a hinv
  rw [listSum_append, hmid]

/-- C1 witness: the invariant theorem applied to a concrete free-play state
and the collection sequence `[3, -1]` with next gem `2`. -/
theorem free_play_sum_invariant_witness :
    numInv samplePlaying
    ∧ ((List.foldl collectGem samplePlaying [3, -1]).sim.currentNumerator + 2
        = listSum ((List.foldl collectGem samplePlaying [3, -1]).sim.collectedHistory ++ [2])
      ∧ numInv (List.foldl collectGem samplePlaying [3, -1])
      ∧ (((collectGem samplePlaying 2).sim.currentNumerator
            = samplePlaying.sim.currentNumerator + 2
          ∧ (collectGem samplePlaying 2).sim.collectedHistory
            = samplePlaying.sim.collectedHistory ++ [2])
        ∨ ((collectGem samplePlaying 2).sim.currentNumerator = 0
          ∧ (collectGem samplePlaying 2).sim.collectedHistory = []))
      ∧ ((obstacleHit samplePlaying).sim.currentNumerator = 0
          ∧ (obstacleHit samplePlaying).sim.collectedHistory = [])
      ∧ ((startGame 800 600 0 samplePlaying).sim.currentNumerator = 0
          ∧ (startGame 800 600 0 samplePlaying).sim.collectedHistory = [])
      ∧ ((nextLevel 800 600 0 samplePlaying).sim.currentNumerator = 0
          ∧ (nextLevel 800 600 0 samplePlaying).sim.collectedHistory = [])) :=
  ⟨rfl, free_play_sum_invariant samplePlaying [3, -1] 2 800 600 0 rfl⟩

/-- C4: a gem collection that makes `currentNumerator` exactly equal the
level's `targetNumerator` with resulting history length ≤ 1 (the previous
history was empty) skips the math challenge: it goes straight to
`game_complete` on the last catalog level and to `level_complete`
otherwise. -/
theorem exact_match_auto_advance (a : AppState) (g : Int)
    (hlt : a.levelIdx < LEVELS.length)
    (hh : a.sim.collectedHistory = [])
    (hsum : a.sim.currentNumerator + g = (levelAt a.levelIdx).targetNumerator) :
    (collectGem a g).gameState =
      (if a.levelIdx = LEVELS.length - 1 then GameState.game_complete
       else GameState.level_complete)
    ∧ (collectGem a g).gameState ≠ GameState.math_challenge := by
  have htpos := targetNumerator_pos a.levelIdx hlt
  have hnotneg : ¬(a.sim.currentNumerator + g < 0) := by omega
  have hlen : ((a.sim.collectedHistory ++ [g]).length ≤ 1) := by
    rw [hh]
    simp
  constructor
  · simp only [collectGem, hnotneg, if_false, hsum, if_pos, hlen, if_true]
    split_ifs <;> simp_all <;> omega
  · simp only [collectGem, hnotneg, if_false, hsum, if_pos, hlen, if_true]
    split_ifs <;> simp_all <;> omega

/-- C4 witness: collecting a single gem worth the whole target (4) on level
index 1 advances straight to `level_complete`. -/
theorem exact_match_auto_advance_witness :
    samplePlaying.levelIdx < LEVELS.length
    ∧ samplePlaying.sim.collectedHistory = []
    ∧ samplePlaying.sim.currentNumerator + 4 = (levelAt samplePlaying.levelIdx).targetNumerator
    ∧ ((collectGem samplePlaying 4).gameState =
        (if samplePlaying.levelIdx = LEVELS.length - 1 then GameState.game_complete
         else GameState.level_complete)
      ∧ (collectGem samplePlaying 4).gameState ≠ GameState.math_challenge) :=
  ⟨by decide, rfl, by decide,
    exact_match_auto_advance samplePlaying 4 (by decide) rfl (by decide)⟩

/-- C5: for every gem collection, if the new sum exceeds the target, or the
accumulation goes below zero, then both `currentNumerator` and
`collectedHistory` are reset to `0`/empty in that same step and the game
state remains `playing`. -/
theorem overshoot_underflow_reset (a : AppState) (g : Int)
    (hlt : a.levelIdx < LEVELS.length)
    (hplay : a.gameState = GameState.playing) :
    (a.sim.currentNumerator + g > (levelAt a.levelIdx).targetNumerator →
      (collectGem a g).sim.currentNumerator = 0
      ∧ (collectGem a g).sim.collectedHistory = []
      ∧ (collectGem a g).gameState = GameState.playing)
    ∧ (a.sim.currentNumerator + g < 0 →
      (collectGem a g).sim.currentNumerator = 0
      ∧ (collectGem a g).sim.collectedHistory = []
      ∧ (collectGem a g).gameState = GameState.playing) := by
  have htpos := targetNumerator_pos a.levelIdx hlt
  constructor
  · intro hover
    obtain ⟨h1, h2, h3⟩ := collectGem_overshoot a g htpos hover
    exact ⟨h1, h2, h3.trans hplay⟩
  · intro hneg
    obtain ⟨h1, h2, h3⟩ := collectGem_underflow a g htpos hneg
    exact ⟨h1, h2, h3.trans hplay⟩

/-- C5 witness: on level index 1 (target 4), collecting `7` overshoots and
collecting `-5` underflows; both hypotheses hold and the reset conclusion
follows by the theorem. -/
theorem overshoot_underflow_reset_witness :
    samplePlaying.levelIdx < LEVELS.length
    ∧ samplePlaying.gameState = GameState.playing
    ∧ samplePlaying.sim.currentNumerator + 7 > (levelAt samplePlaying.levelIdx).targetNumerator
    ∧ samplePlaying.sim.currentNumerator + (-5) < 0
    ∧ ((collectGem samplePlaying 7).sim.currentNumerator = 0
      ∧ (collectGem samplePlaying 7).sim.collectedHistory = []
      ∧ (collectGem samplePlaying 7).gameState = GameState.playing)
    ∧ ((collectGem samplePlaying (-5)).sim.currentNumerator = 0
      ∧ (collectGem samplePlaying (-5)).sim.collectedHistory = []
      ∧ (collectGem samplePlaying (-5)).gameState = GameState.playing) :=
  ⟨by decide, rfl, by decide, by decide,
    (overshoot_underflow_reset samplePlaying 7 (by decide) rfl).1 (by decide),
    (overshoot_underflow_reset samplePlaying (-5) (by decide) rfl).2 (by decide)⟩

/-- The math-challenge state reached by collecting gems `3`, `-1`, `2` on
level index 1 (target numerator 4). -/
def sampleChallenge : AppState :=
  collectGem (collectGem (collectGem samplePlaying 3) (-1)) 2

/-- C2: in the math challenge over `collectedHistory = [g0, ..., gk]`, at
step `s` (with `1 ≤ s ≤ k`) the expected answer is
`sum(g0..g_(s-1)) + g_s`; a correct submission advances the step by one
while `s < k`, and a correct submission at `s = k` (so `s` would reach
`k + 1 = length`) completes the challenge, transitioning to
`game_complete` on the last catalog level and `level_complete` otherwise. -/
theorem math_challenge_protocol (a : AppState)
    (hs1 : 1 ≤ a.mathStep)
    (hs2 : a.mathStep < a.sim.collectedHistory.length)
    (hc : mathCorrect a = true) :
    mathExpected a
      = some (listSum (a.sim.collectedHistory.take a.mathStep)
          + a.sim.collectedHistory.getD a.mathStep 0)
    ∧ (a.mathStep + 1 < a.sim.collectedHistory.length →
        handleMathSubmit a
          = { a with mathStep := a.mathStep + 1, mathInput := "", mathError := false })
    ∧ (a.mathStep + 1 = a.sim.collectedHistory.length →
        handleMathSubmit a
          = { a with gameState :=
              if a.levelIdx = LEVELS.length - 1 then GameState.game_complete
              else GameState.level_complete }) := by
  refine ⟨?_, ?_, ?_⟩
  · unfold mathExpected
    rw [List.get?_eq_get hs2]
    simp [List.getD, List.getElem?_eq_getElem hs2]
  · intro hlt
    unfold handleMathSubmit
    rw [hc]
    simp only [if_true]
    have : ¬(a.mathStep + 1 ≥ a.sim.collectedHistory.length) := by omega
    rw [if_neg this]
  · intro heq
    unfold handleMathSubmit
    rw [hc]
    simp only [if_true]
    have : a.mathStep + 1 ≥ a.sim.collectedHistory.length := by omega
    rw [if_pos this]

/-- C2 witness: in the challenge over `[3, -1, 2]` at step 1, the expected
answer is `3 + (-1) = 2`, and submitting "2" advances to step 2. -/
theorem math_challenge_protocol_witness :
    1 ≤ (typeInput "2" sampleChallenge).mathStep
    ∧ (typeInput "2" sampleChallenge).mathStep
        < (typeInput "2" sampleChallenge).sim.collectedHistory.length
    ∧ mathCorrect (typeInput "2" sampleChallenge) = true
    ∧ (mathExpected (typeInput "2" sampleChallenge)
        = some (listSum ((typeInput "2" sampleChallenge).sim.collectedHistory.take
              (typeInput "2" sampleChallenge).mathStep)
            + (typeInput "2" sampleChallenge).sim.collectedHistory.getD
              (typeInput "2" sampleChallenge).mathStep 0)
      ∧ ((typeInput "2" sampleChallenge).mathStep + 1
            < (typeInput "2" sampleChallenge).sim.collectedHistory.length →
          handleMathSubmit (typeInput "2" sampleChallenge)
            = { (typeInput "2" sampleChallenge) with
                mathStep := (typeInput "2" sampleChallenge).mathStep + 1,
                mathInput := "", mathError := false })
      ∧ ((typeInput "2" sampleChallenge).mathStep + 1
            = (typeInput "2" sampleChallenge).sim.collectedHistory.length →
          handleMathSubmit (typeInput "2" sampleChallenge)
            = { (typeInput "2" sampleChallenge) with gameState :=
                if (typeInput "2" sampleChallenge).levelIdx = LEVELS.length - 1
                then GameState.game_complete
                else GameState.level_complete })) :=
  ⟨by decide, by decide, by decide,
    math_challenge_protocol (typeInput "2" sampleChallenge)
      (by decide) (by decide) (by decide)⟩

/-- C3 counterexample: with history `[3, -1, 2]` on a level whose target is
4, the run does enter the math challenge, but at step 1 the expected
answer is `2` (the running sum `3 + (-1)`), not `3`: submitting "3" is
rejected (error flag, step unchanged).  The challenge has steps 1..2, not
1..3. -/
theorem challenge_three_step_counterexample :
    sampleChallenge.gameState = GameState.math_challenge
    ∧ sampleChallenge.mathStep = 1
    ∧ sampleChallenge.sim.collectedHistory = [3, -1, 2]
    ∧ mathExpected sampleChallenge = some 2
    ∧ ¬(mathExpected sampleChallenge = some 3)
    ∧ handleMathSubmit (typeInput "3" sampleChallenge)
        = { sampleChallenge with mathInput := "3", mathError := true }
    ∧ sampleChallenge.sim.collectedHistory.length - 1 = 2 := by
  refine ⟨rfl, rfl, rfl, rfl, by decide, by decide, rfl⟩

/-- C3 amended: a run with `collectedHistory = [3, -1, 2]` on a level whose
`targetNumerator` is 4 transitions to `math_challenge` on the collection
reaching sum 4, and the challenge has two steps whose expected answers
are `2` and `4` for steps 1..2 (the first gem `3` serves as the starting
partial sum and is never itself asked); the second correct submission
completes the challenge with `level_complete`. -/
theorem challenge_three_step_amended :
    sampleChallenge.gameState = GameState.math_challenge
    ∧ sampleChallenge.mathStep = 1
    ∧ sampleChallenge.sim.collectedHistory = [3, -1, 2]
    ∧ mathExpected sampleChallenge = some 2
    ∧ (handleMathSubmit (typeInput "2" sampleChallenge)).mathStep = 2
    ∧ mathExpected (handleMathSubmit (typeInput "2" sampleChallenge)) = some 4
    ∧ (handleMathSubmit (typeInput "4"
        (handleMathSubmit (typeInput "2" sampleChallenge)))).gameState
        = GameState.level_complete := by
  refine ⟨rfl, rfl, rfl, rfl, by decide, by decide, by decide⟩

/-- C7: in either verification sub-game, a submission whose text does not
parse to the expected integer (non-numeric or wrong value) is treated as
incorrect: the handler only sets the error flag and leaves every other
component of the state (math step, history, charge progress, question,
game state, simulation) unchanged. -/
theorem invalid_submission_harmless (a : AppState) (q : ChargeQuestion)
    (w h now : ℚ) :
    (mathCorrect a = false → handleMathSubmit a = { a with mathError := true })
    ∧ (chargeCorrect a = false →
        handleChargeSubmit q w h now a = { a with mathError := true }) := by
  constructor
  · intro hbad
    unfold handleMathSubmit
    rw [hbad]
    simp
  · intro hbad
    unfold handleChargeSubmit
    rw [hbad]
    simp

/-- C7 witness: the non-numeric submission "abc" in the sample challenge
state fails the parse on both sub-games and only sets the error flag. -/
theorem invalid_submission_harmless_witness :
    mathCorrect (typeInput "abc" sampleChallenge) = false
    ∧ chargeCorrect (typeInput "abc" sampleChallenge) = false
    ∧ handleMathSubmit (typeInput "abc" sampleChallenge)
        = { (typeInput "abc" sampleChallenge) with mathError := true }
    ∧ handleChargeSubmit { n1 := 1, n2 := 1, op := ChargeOp.plus, d := 3 } 800 600 0
        (typeInput "abc" sampleChallenge)
        = { (typeInput "abc" sampleChallenge) with mathError := true } :=
  ⟨by decide, by decide,
    (invalid_submission_harmless (typeInput "abc" sampleChallenge)
      { n1 := 1, n2 := 1, op := ChargeOp.plus, d := 3 } 800 600 0).1 (by decide),
    (invalid_submission_harmless (typeInput "abc" sampleChallenge)
      { n1 := 1, n2 := 1, op := ChargeOp.plus, d := 3 } 800 600 0).2 (by decide)⟩


/-- C6: in the charge-up drill, three consecutive correct answers starting
from `chargeProgress = 0` credit exactly one power-up and transition to
`playing` at the next level index.  `q1`, `q2`, `q3` are the questions the
random generator produces at each regeneration, and `i2`, `i3` the texts
typed before the second and third submissions (the first submission uses
the input already stored in `a`). -/
theorem charge_up_streak (a : AppState) (q1 q2 q3 : ChargeQuestion)
    (i2 i3 : String) (w h now : ℚ)
    (h0 : a.chargeProgress = 0)
    (hc1 : chargeCorrect a = true)
    (hc2 : chargeCorrect (typeInput i2 (handleChargeSubmit q1 w h now a)) = true)
    (hc3 : chargeCorrect (typeInput i3 (handleChargeSubmit q2 w h now
      (typeInput i2 (handleChargeSubmit q1 w h now a)))) = true) :
    (handleChargeSubmit q3 w h now (typeInput i3 (handleChargeSubmit q2 w h now
        (typeInput i2 (handleChargeSubmit q1 w h now a))))).sim.powerUps
      = a.sim.powerUps + 1
    ∧ (handleChargeSubmit q3 w h now (typeInput i3 (handleChargeSubmit q2 w h now
        (typeInput i2 (handleChargeSubmit q1 w h now a))))).levelIdx
      = a.levelIdx + 1
    ∧ (handleChargeSubmit q3 w h now (typeInput i3 (handleChargeSubmit q2 w h now
        (typeInput i2 (handleChargeSubmit q1 w h now a))))).gameState
      = GameState.playing := by
  simp_all [handleChargeSubmit, typeInput, nextLevel]

/-- A charge-up state: the sample free-play state after choosing the
charge-up detour, with the initial question `1/3 + 1/3` and the correct
answer "2" already typed. -/
def sampleCharge : AppState :=
  { samplePlaying with gameState := GameState.charge_up, mathInput := "2" }

/-- C6 witness: three correct answers (`2`, then `3` for `2/4 + 1/4`, then
`1` for `3/4 - 2/4`) from `chargeProgress = 0` credit one power-up and
start the next level. -/
theorem charge_up_streak_witness :
    sampleCharge.chargeProgress = 0
    ∧ chargeCorrect sampleCharge = true
    ∧ chargeCorrect (typeInput "3" (handleChargeSubmit
        { n1 := 2, n2 := 1, op := ChargeOp.plus, d := 4 } 800 600 0 sampleCharge)) = true
    ∧ chargeCorrect (typeInput "1" (handleChargeSubmit
        { n1 := 3, n2 := 2, op := ChargeOp.minus, d := 4 } 800 600 0
        (typeInput "3" (handleChargeSubmit
          { n1 := 2, n2 := 1, op := ChargeOp.plus, d := 4 } 800 600 0 sampleCharge)))) = true
    ∧ ((handleChargeSubmit { n1 := 1, n2 := 1, op := ChargeOp.plus, d := 4 } 800 600 0
        (typeInput "1" (handleChargeSubmit
          { n1 := 3, n2 := 2, op := ChargeOp.minus, d := 4 } 800 600 0
          (typeInput "3" (handleChargeSubmit
            { n1 := 2, n2 := 1, op := ChargeOp.plus, d := 4 } 800 600 0
            sampleCharge))))).sim.powerUps
        = sampleCharge.sim.powerUps + 1
      ∧ (handleChargeSubmit { n1 := 1, n2 := 1, op := ChargeOp.plus, d := 4 } 800 600 0
        (typeInput "1" (handleChargeSubmit
          { n1 := 3, n2 := 2, op := ChargeOp.minus, d := 4 } 800 600 0
          (typeInput "3" (handleChargeSubmit
            { n1 := 2, n2 := 1, op := ChargeOp.plus, d := 4 } 800 600 0
            sampleCharge))))).levelIdx
        = sampleCharge.levelIdx + 1
      ∧ (handleChargeSubmit { n1 := 1, n2 := 1, op := ChargeOp.plus, d := 4 } 800 600 0
        (typeInput "1" (handleChargeSubmit
          { n1 := 3, n2 := 2, op := ChargeOp.minus, d := 4 } 800 600 0
          (typeInput "3" (handleChargeSubmit
            { n1 := 2, n2 := 1, op := ChargeOp.plus, d := 4 } 800 600 0
            sampleCharge))))).gameState
        = GameState.playing) :=
  ⟨rfl, by decide, by decide, by decide,
    charge_up_streak sampleCharge
      { n1 := 2, n2 := 1, op := ChargeOp.plus, d := 4 }
      { n1 := 3, n2 := 2, op := ChargeOp.minus, d := 4 }
      { n1 := 1, n2 := 1, op := ChargeOp.plus, d := 4 }
      "3" "1" 800 600 0 rfl (by decide) (by decide) (by decide)⟩

/-- The operations of the system that read or write the shared state:
gem collection and obstacle hit (from the physics step), the spacebar
pulsar, both submission handlers, typing into the answer box, and the
two level-flow handlers. -/
inductive SysOp
  | collect (g : Int)
  | obstacle
  | pulsar (w h : ℚ)
  | mathSubmit
  | chargeSubmit (newQ : ChargeQuestion) (w h now : ℚ)
  | answerChange (s : String)
  | gameStart (w h now : ℚ)
  | levelAdvance (w h now : ℚ)

/-- Dispatch of a system operation to its handler. -/
def sysStep : SysOp → AppState → AppState
  | SysOp.collect g, a => collectGem a g
  | SysOp.obstacle, a => obstacleHit a
  | SysOp.pulsar w h, a => pulsarKey w h a
  | SysOp.mathSubmit, a => handleMathSubmit a
  | SysOp.chargeSubmit newQ w h now, a => handleChargeSubmit newQ w h now a
  | SysOp.answerChange s, a => typeInput s a
  | SysOp.gameStart w h now, a => startGame w h now a
  | SysOp.levelAdvance w h now, a => nextLevel w h now a

/-- C8 counterexample: `startGame` (the full-restart handler, reachable
from the start screen and from `game_complete`) is an operation other
than pulsar consumption that decreases the power-up count: from a state
holding 2 power-ups it drops the count to 0. -/
theorem power_up_counterexample :
    ({ samplePlaying with
        sim := { sampleSim with powerUps := 2 } } : AppState).sim.powerUps = 2
    ∧ (sysStep (SysOp.gameStart 800 600 0)
        { samplePlaying with sim := { sampleSim with powerUps := 2 } }).sim.powerUps = 0
    ∧ (sysStep (SysOp.gameStart 800 600 0)
        { samplePlaying with sim := { sampleSim with powerUps := 2 } }).sim.powerUps
      < ({ samplePlaying with
          sim := { sampleSim with powerUps := 2 } } : AppState).sim.powerUps := by
  refine ⟨rfl, rfl, by decide⟩

/-- `handleMathSubmit` never touches the simulation record. -/
theorem handleMathSubmit_sim (a : AppState) :
    (handleMathSubmit a).sim = a.sim := by
  unfold handleMathSubmit
  split_ifs <;> rfl

/-- `handleChargeSubmit` either leaves the power-up count unchanged or
increments it by exactly one (on streak completion). -/
theorem handleChargeSubmit_powerUps (newQ : ChargeQuestion) (w h now : ℚ)
    (a : AppState) :
    (handleChargeSubmit newQ w h now a).sim.powerUps = a.sim.powerUps
    ∨ ((handleChargeSubmit newQ w h now a).sim.powerUps = a.sim.powerUps + 1
        ∧ chargeCorrect a = true ∧ a.chargeProgress + 1 ≥ 3) := by
  simp only [handleChargeSubmit]
  split_ifs with hc hp
  · exact Or.inr ⟨rfl, hc, hp⟩
  · exact Or.inl rfl
  · exact Or.inl rfl

/-- `pulsarKey` either leaves the power-up count unchanged (in particular
whenever it is zero or the state is not `playing`) or decrements a
positive count by exactly one. -/
theorem pulsarKey_powerUps (w h : ℚ) (a : AppState) :
    (pulsarKey w h a) = a
    ∨ (a.sim.powerUps > 0
        ∧ (pulsarKey w h a).sim.powerUps = a.sim.powerUps - 1) := by
  unfold pulsarKey
  split_ifs with hg hp
  · exact Or.inr ⟨hp, rfl⟩
  · exact Or.inl rfl
  · exact Or.inl rfl

/-- C8 (amended): the power-up count stays non-negative under every system
operation; it is incremented (by exactly 1) only by charge-up completion
and decremented only by pulsar consumption — which is a no-op at count
0 — except that the full-restart `startGame` resets the count to 0. -/
theorem power_up_invariant (op : SysOp) (a : AppState)
    (hnn : 0 ≤ a.sim.powerUps) :
    0 ≤ (sysStep op a).sim.powerUps
    ∧ ((sysStep op a).sim.powerUps < a.sim.powerUps →
        (∃ w h, op = SysOp.pulsar w h) ∨ (∃ w h now, op = SysOp.gameStart w h now))
    ∧ (a.sim.powerUps < (sysStep op a).sim.powerUps →
        (∃ newQ w h now, op = SysOp.chargeSubmit newQ w h now)
        ∧ (sysStep op a).sim.powerUps = a.sim.powerUps + 1)
    ∧ (∀ w h, a.sim.powerUps = 0 → pulsarKey w h a = a) := by
  have hpulsar0 : ∀ w h, a.sim.powerUps = 0 → pulsarKey w h a = a := by
    intro w h hz
    unfold pulsarKey
    split_ifs with hg hp
    · omega
    · rfl
    · rfl
  cases op with
  | collect g =>
    have he : (sysStep (SysOp.collect g) a).sim.powerUps = a.sim.powerUps :=
      collectGem_powerUps a g
    refine ⟨by omega, fun hlt => absurd he (by omega), fun hlt => absurd he (by omega),
      hpulsar0⟩
  | obstacle =>
    have he : (sysStep SysOp.obstacle a).sim.powerUps = a.sim.powerUps := rfl
    refine ⟨by omega, fun hlt => absurd he (by omega), fun hlt => absurd he (by omega),
      hpulsar0⟩
  | pulsar w h =>
    rcases pulsarKey_powerUps w h a with he | ⟨hp, he⟩
    · have he2 : (sysStep (SysOp.pulsar w h) a).sim.powerUps = a.sim.powerUps := by
        show (pulsarKey w h a).sim.powerUps = a.sim.powerUps
        rw [he]
      refine ⟨by omega, fun hlt => absurd he2 (by omega),
        fun hlt => absurd he2 (by omega), hpulsar0⟩
    · have he2 : (sysStep (SysOp.pulsar w h) a).sim.powerUps = a.sim.powerUps - 1 := he
      refine ⟨by omega, fun hlt => Or.inl ⟨w, h, rfl⟩,
        fun hlt => absurd he2 (by omega), hpulsar0⟩
  | mathSubmit =>
    have he : (sysStep SysOp.mathSubmit a).sim.powerUps = a.sim.powerUps := by
      show (handleMathSubmit a).sim.powerUps = a.sim.powerUps
      rw [handleMathSubmit_sim]
    refine ⟨by omega, fun hlt => absurd he (by omega), fun hlt => absurd he (by omega),
      hpulsar0⟩
  | chargeSubmit newQ w h now =>
    rcases handleChargeSubmit_powerUps newQ w h now a with he | ⟨he, _, _⟩
    · have he2 : (sysStep (SysOp.chargeSubmit newQ w h now) a).sim.powerUps
          = a.sim.powerUps := he
      refine ⟨by omega, fun hlt => absurd he2 (by omega),
        fun hlt => absurd he2 (by omega), hpulsar0⟩
    · have he2 : (sysStep (SysOp.chargeSubmit newQ w h now) a).sim.powerUps
          = a.sim.powerUps + 1 := he
      refine ⟨by omega, fun hlt => absurd he2 (by omega),
        fun hlt => ⟨⟨newQ, w, h, now, rfl⟩, he2⟩, hpulsar0⟩
  | answerChange s =>
    have he : (sysStep (SysOp.answerChange s) a).sim.powerUps = a.sim.powerUps := rfl
    refine ⟨by omega, fun hlt => absurd he (by omega), fun hlt => absurd he (by omega),
      hpulsar0⟩
  | gameStart w h now =>
    have he : (sysStep (SysOp.gameStart w h now) a).sim.powerUps = 0 := rfl
    refine ⟨by omega, fun hlt => Or.inr ⟨w, h, now, rfl⟩,
      fun hlt => absurd he (by omega), hpulsar0⟩
  | levelAdvance w h now =>
    have he : (sysStep (SysOp.levelAdvance w h now) a).sim.powerUps = a.sim.powerUps := rfl
    refine ⟨by omega, fun hlt => absurd he (by omega), fun hlt => absurd he (by omega),
      hpulsar0⟩

/-- The sample free-play state holding one power-up. -/
def sampleArmed : AppState :=
  { samplePlaying with sim := { sampleSim with powerUps := 1 } }

/-- C8 witness: the amended power-up invariant applied to the pulsar
operation from a state holding one power-up. -/
theorem power_up_invariant_witness :
    0 ≤ sampleArmed.sim.powerUps
    ∧ (0 ≤ (sysStep (SysOp.pulsar 800 600) sampleArmed).sim.powerUps
      ∧ ((sysStep (SysOp.pulsar 800 600) sampleArmed).sim.powerUps
            < sampleArmed.sim.powerUps →
          (∃ w h, SysOp.pulsar 800 600 = SysOp.pulsar w h)
          ∨ (∃ w h now, SysOp.pulsar 800 600 = SysOp.gameStart w h now))
      ∧ (sampleArmed.sim.powerUps
            < (sysStep (SysOp.pulsar 800 600) sampleArmed).sim.powerUps →
          (∃ newQ w h now, SysOp.pulsar 800 600 = SysOp.chargeSubmit newQ w h now)
          ∧ (sysStep (SysOp.pulsar 800 600) sampleArmed).sim.powerUps
            = sampleArmed.sim.powerUps + 1)
      ∧ (∀ w h, sampleArmed.sim.powerUps = 0 → pulsarKey w h sampleArmed = sampleArmed)) :=
  ⟨by decide, power_up_invariant (SysOp.pulsar 800 600) sampleArmed (by decide)⟩

/-- C9: the per-frame driver advances the simulation only in the `playing`
state — in every other state the tick leaves the simulation untouched —
and when it does advance, the delta fed to the physics step is the time
since the last tick clamped to at most 50ms, with the tick timestamp
recorded. -/
theorem loop_playing_only (upd : ℚ → SimState → SimState) (g : GameState)
    (t : ℚ) (s : SimState) :
    (g ≠ GameState.playing → loop upd g t s = s)
    ∧ loop upd GameState.playing t s
        = upd (min (t - s.lastTime) 50) { s with lastTime := t } := by
  constructor
  · intro hne
    unfold loop
    rw [if_neg hne]
  · have harg : (if t - s.lastTime > 50 then (50 : ℚ) else t - s.lastTime)
        = min (t - s.lastTime) 50 := by
      rcases le_or_lt (t - s.lastTime) 50 with hle | hlt
      · rw [if_neg (not_lt.mpr hle), min_eq_left hle]
      · rw [if_pos hlt, min_eq_right hlt.le]
    show upd (if t - s.lastTime > 50 then (50 : ℚ) else t - s.lastTime)
        { s with lastTime := t } = _
    rw [harg]

/-- C9 witness: a tick in the `start` state leaves the simulation record
unchanged, and a tick in `playing` feeds the clamped delta to the step. -/
theorem loop_playing_only_witness :
    GameState.start ≠ GameState.playing
    ∧ loop (fun _ x => x) GameState.start 100 sampleSim = sampleSim
    ∧ loop (fun _ x => x) GameState.playing 100 sampleSim
        = (fun (_ : ℚ) (x : SimState) => x) (min ((100 : ℚ) - sampleSim.lastTime) 50)
            { sampleSim with lastTime := 100 } :=
  ⟨by decide,
    (loop_playing_only (fun _ x => x) GameState.start 100 sampleSim).1 (by decide),
    (loop_playing_only (fun _ x => x) GameState.playing 100 sampleSim).2⟩

/-- C10: advancing to the next level resets the run progress, the entity
sets and the ship position, leaves the power-up count unchanged (so
power-ups earned in charge-up carry over across levels), and only the
full restart `startGame` zeroes the power-up count (alongside resetting
the level index to 0). -/
theorem next_level_carry_over (a : AppState) (w h now : ℚ) :
    (nextLevel w h now a).sim.currentNumerator = 0
    ∧ (nextLevel w h now a).sim.collectedHistory = []
    ∧ (nextLevel w h now a).sim.gems = []
    ∧ (nextLevel w h now a).sim.obstacles = []
    ∧ (nextLevel w h now a).sim.shockwaves = []
    ∧ (nextLevel w h now a).sim.shipX = w / 2
    ∧ (nextLevel w h now a).sim.shipY = h - 80
    ∧ (nextLevel w h now a).sim.powerUps = a.sim.powerUps
    ∧ (nextLevel w h now a).levelIdx = a.levelIdx + 1
    ∧ (nextLevel w h now a).gameState = GameState.playing
    ∧ (startGame w h now a).sim.powerUps = 0
    ∧ (startGame w h now a).levelIdx = 0
    ∧ (startGame w h now a).gameState = GameState.playing :=
  ⟨rfl, rfl, rfl, rfl, rfl, rfl, rfl, rfl, rfl, rfl, rfl, rfl, rfl⟩
